import Mathlib

/-!
# Verification of the pyestro inventory resolution and filtering engine

Shallow embedding of the core of the `ategus/maestro` (pyestro) repository:

* `pyestro/core/validation.py`   — `InputValidator`
* `pyestro/parsers/reclass_parser.py` — `ReclassManager` (node queries, `filter_nodes`)
* `pyestro/core/reclass.py`      — `ReclassParser` (`list_nodes` fallback, `merge_inventories`)
* `pyestro/core/file_ops.py`     — `FileManager.sync_directories`

External collaborators (the `reclass` subprocess, `rsync`, the filesystem) are
modelled as oracles: record fields hold the parsed output each subprocess
invocation would produce, and filesystem-mutating calls are recorded as an
explicit effect trace so that frame conditions ("no mutation in dry-run") are
statable.  Machine-level details (actual JSON text, process plumbing) are below
the granularity of every claim; parsed subprocess output is shaped as the
classifier interface documents it (a JSON object with optional `nodes`,
`classes`, `parameters`, `applications` keys).
-/

set_option autoImplicit false

/-! ## Python string helpers -/

/-- Whitespace characters recognised by Python's `str.strip()` (ASCII range). -/
def pyIsSpace (c : Char) : Bool :=
  c = ' ' || c = '\t' || c = '\n' || c = '\r' || c = '\x0b' || c = '\x0c'

/-- Embedding of Python `str.strip()`: drop leading and trailing whitespace. -/
def pyStrip (s : String) : String :=
  ⟨((s.toList.dropWhile pyIsSpace).reverse.dropWhile pyIsSpace).reverse⟩

/-- Characters allowed by `InputValidator.NODE_NAME_PATTERN`,
the regex `^[a-zA-Z0-9._-]+$` (validation.py line 25). -/
def isNodeNameChar (c : Char) : Bool :=
  c.isAlphanum || c = '.' || c = '_' || c = '-'

/-- Characters allowed by `InputValidator.validate_filter_pattern`,
the regex `^[a-zA-Z0-9.*_-]+$` (validation.py line 176). -/
def isFilterPatternChar (c : Char) : Bool :=
  c.isAlphanum || c = '.' || c = '*' || c = '_' || c = '-'

/-- Embedding of Python `.split()` on a string: split on runs of whitespace,
discarding empty pieces.  `acc` holds the reversed characters of the word
being read. -/
def pySplitAux : List Char → List Char → List String
  | [], [] => []
  | [], acc => [⟨acc.reverse⟩]
  | c :: cs, acc =>
    if pyIsSpace c then
      match acc with
      | [] => pySplitAux cs []
      | _ => (⟨acc.reverse⟩ : String) :: pySplitAux cs []
    else pySplitAux cs (c :: acc)

/-- Python `str.split()` with no separator argument. -/
def pySplit (s : String) : List String := pySplitAux s.toList []

/-! ## Lexicographic string order

Python's `sorted` on `str` compares strings lexicographically by code point,
case-sensitively.  Lean's built-in `String.le` has the same meaning but its
implementation does not reduce inside the kernel, so the embedding carries
its own (equivalent, executable) definition and the order facts `insertionSort`
needs. -/

/-- Lexicographic order on character lists by code point. -/
def lexLeB : List Char → List Char → Bool
  | [], _ => true
  | _ :: _, [] => false
  | a :: as, b :: bs => if a = b then lexLeB as bs else decide (a.toNat < b.toNat)

/-- Code-point lexicographic order on strings (what Python's `sorted` and
`<` use for `str`). -/
def strLe (a b : String) : Prop := lexLeB a.toList b.toList = true

/-- Strict code-point lexicographic order. -/
def strLt (a b : String) : Prop := strLe a b ∧ a ≠ b

instance : DecidableRel strLe := fun _ _ => instDecidableEqBool _ _

instance : DecidableRel strLt := fun _ _ => instDecidableAnd

theorem char_toNat_injective : Function.Injective Char.toNat :=
  StrictMono.injective fun _ _ h => h

theorem lexLeB_total : ∀ as bs : List Char, lexLeB as bs = true ∨ lexLeB bs as = true
  | [], _ => Or.inl rfl
  | _ :: _, [] => Or.inr rfl
  | a :: as, b :: bs => by
    by_cases hab : a = b
    · subst hab
      simpa [lexLeB] using lexLeB_total as bs
    · have hne : b ≠ a := fun h => hab h.symm
      have : a.toNat ≠ b.toNat := fun h => hab (char_toNat_injective h)
      rcases Nat.lt_or_ge a.toNat b.toNat with h | h
      · exact Or.inl (by simp [lexLeB, hab, h])
      · exact Or.inr (by
          simp only [lexLeB, if_neg hne, decide_eq_true_eq]
          omega)

theorem lexLeB_antisymm : ∀ as bs : List Char,
    lexLeB as bs = true → lexLeB bs as = true → as = bs
  | [], [], _, _ => rfl
  | [], _ :: _, _, h => by simp [lexLeB] at h
  | _ :: _, [], h, _ => by simp [lexLeB] at h
  | a :: as, b :: bs, h₁, h₂ => by
    by_cases hab : a = b
    · subst hab
      simp only [lexLeB, if_pos rfl] at h₁ h₂
      exact congrArg (a :: ·) (lexLeB_antisymm as bs h₁ h₂)
    · have hne : b ≠ a := fun h => hab h.symm
      simp only [lexLeB, if_neg hab, if_neg hne, decide_eq_true_eq] at h₁ h₂
      omega

theorem lexLeB_trans : ∀ as bs cs : List Char,
    lexLeB as bs = true → lexLeB bs cs = true → lexLeB as cs = true
  | [], _, _, _, _ => rfl
  | _ :: _, [], _, h, _ => by simp [lexLeB] at h
  | _ :: _, _ :: _, [], _, h => by simp [lexLeB] at h
  | a :: as, b :: bs, c :: cs, h₁, h₂ => by
    by_cases hab : a = b
    · subst hab
      simp only [lexLeB, if_pos rfl] at h₁
      by_cases hbc : a = c
      · subst hbc
        simp only [lexLeB, if_pos rfl] at h₂ ⊢
        exact lexLeB_trans as bs cs h₁ h₂
      · simpa [lexLeB, hbc] using h₂
    · simp only [lexLeB, if_neg hab, decide_eq_true_eq] at h₁
      by_cases hbc : b = c
      · subst hbc
        simpa [lexLeB, hab] using h₁
      · simp only [lexLeB, if_neg hbc, decide_eq_true_eq] at h₂
        have hac : a ≠ c := fun h => by
          subst h
          omega
        simp only [lexLeB, if_neg hac, decide_eq_true_eq]
        omega

instance : IsTotal String strLe :=
  ⟨fun a b => lexLeB_total a.toList b.toList⟩

instance : IsTrans String strLe :=
  ⟨fun a b c => lexLeB_trans a.toList b.toList c.toList⟩

instance : IsAntisymm String strLe :=
  ⟨fun a b h₁ h₂ => by
    have := lexLeB_antisymm a.toList b.toList h₁ h₂
    cases a; cases b
    simpa [String.toList] using congrArg String.mk this⟩

instance : IsRefl String strLe :=
  ⟨fun a => by
    rcases lexLeB_total a.toList a.toList with h | h <;> exact h⟩

/-- Embedding of Python `sorted` on a list of strings. -/
def pySorted (l : List String) : List String := List.insertionSort strLe l

/-! ## JSON-shaped values

Parameter values are arbitrary JSON; the engine treats them opaquely except
for comparing the top-level `"project"` value against a Python `str`. -/

/-- JSON values, as produced by `json.loads` on classifier output. -/
inductive Json where
  | null
  | bool (b : Bool)
  | num (n : Int)
  | str (s : String)
  | arr (elems : List Json)
  | obj (fields : List (String × Json))

/-- Embedding of the Python comparison `v == s` where `s` is a `str` and `v`
is a JSON-decoded value (`None` when the key was absent): only a JSON string
with the same contents compares equal. -/
def pyEqStr : Option Json → String → Bool
  | some (Json.str s), t => s = t
  | _, _ => false

/-- A single node's document as returned by the classifier
(`{"parameters": ..., "classes": ..., "applications": ...}`); each key may be
absent. -/
structure NodeData where
  classes : Option (List String)
  applications : Option (List String)
  parameters : Option (List (String × Json))

/-- The full-inventory document as returned by the classifier
(`{"nodes": {...}, ...}`); the `nodes` key may be absent.  The association
list preserves the JSON object's (Python `dict`) insertion order. -/
structure InventoryData where
  nodes : Option (List (String × NodeData))

/-! ## `InputValidator` (pyestro/core/validation.py)

The Python methods raise `ValidationError`; the embedding returns `none` for a
raised error and `some sanitized` for a successful validation. -/

namespace InputValidator

/-- `InputValidator.sanitize_node_name` (validation.py lines 46-60):
reject empty input, strip whitespace, require `^[a-zA-Z0-9._-]+$` on the
stripped string, reject length over 100, and return the stripped name. -/
def sanitize_node_name (node_name : String) : Option String :=
  if node_name = "" then none
  else if pyStrip node_name ≠ "" && (pyStrip node_name).toList.all isNodeNameChar then
    if (pyStrip node_name).length > 100 then none
    else some (pyStrip node_name)
  else none

/-- `InputValidator.validate_filter_pattern` (validation.py lines 164-179):
strip whitespace, reject the empty pattern, require `^[a-zA-Z0-9.*_-]+$`, and
return the stripped pattern. -/
def validate_filter_pattern (pattern : String) : Option String :=
  if pyStrip pattern = "" then none
  else if (pyStrip pattern).toList.all isFilterPatternChar then some (pyStrip pattern)
  else none

end InputValidator

/-! ## The wildcard regex of `filter_nodes`

`filter_nodes` turns a `*`-containing validated pattern into the regex
`pattern.replace("*", ".*")` and keeps a node when `regex.match(name)` is
truthy (reclass_parser.py lines 218-223).  Since a validated pattern only
contains `[a-zA-Z0-9.*_-]`, the resulting regex is a sequence of literal
characters, `.` atoms (any single character) and `.*` atoms (any sequence),
matched at the start of the name without needing to consume all of it.
`reMatchAux pat s` decides exactly that: interpreting `*` in the original
pattern as "any sequence", `.` as "any single character" and every other
character literally, does some prefix of `s` match? -/

def reMatchAux : List Char → List Char → Bool
  | [], _ => true
  | p :: ps, s =>
    if p = '*' then s.tails.any fun t => reMatchAux ps t
    else
      match s with
      | [] => false
      | c :: s' => (if p = '.' then true else p = c) && reMatchAux ps s'

/-- `re.match` of the compiled wildcard pattern against a candidate name. -/
def reMatch (pat : String) (s : String) : Bool :=
  reMatchAux pat.toList s.toList

/-- Modelled from the claim's reading of wildcard matching: each `*` stands
for any sequence of characters and every other pattern character stands for
itself, anchored at the start of the candidate.  (The code instead feeds the
pattern to `re`, where `.` additionally matches any single character; the two
semantics are compared below.) -/
def claimWildcardAux : List Char → List Char → Bool
  | [], _ => true
  | p :: ps, s =>
    if p = '*' then s.tails.any fun t => claimWildcardAux ps t
    else
      match s with
      | [] => false
      | c :: s' => p = c && claimWildcardAux ps s'

/-- The claim's wildcard semantics on strings. -/
def claimWildcardMatch (pat : String) (s : String) : Bool :=
  claimWildcardAux pat.toList s.toList

/-! ## `ReclassManager` (pyestro/parsers/reclass_parser.py)

The record captures the manager's constructor state (`inventory_dir`,
`dry_run`, `reclass_path` as found by `shutil.which`) together with the
oracle describing the external `reclass` process: `invOutput` is the parsed
stdout of the full-inventory invocation (`none` when the process exits
non-zero or its output fails to parse), and `nodeOutput name` the parsed
stdout of the single-node invocation.  `get_node_data` additionally returns
the list of subprocess argument vectors it executed, so that "the process was
never invoked" is statable. -/

structure ReclassManager where
  inventory_dir : String
  dry_run : Bool
  reclass_path : Option String
  invOutput : Option InventoryData
  nodeOutput : String → Option NodeData

namespace ReclassManager

/-- `ReclassManager.get_node_data` (reclass_parser.py lines 29-67).
Returns the parsed node document (or `none` for any warned-and-swallowed
failure) paired with the list of executed subprocess command lines. -/
def get_node_data (m : ReclassManager) (node_name : String) :
    Option NodeData × List (List String) :=
  match m.reclass_path with
  | none => (none, [])
  | some rp =>
    match InputValidator.sanitize_node_name node_name with
    | none => (none, [])
    | some nm =>
      let cmd := [rp, "-b", m.inventory_dir, "-n", nm, "--output", "json"]
      if m.dry_run then
        (some { parameters := some [], classes := some [], applications := some [] }, [])
      else
        (m.nodeOutput nm, [cmd])

/-- `ReclassManager.get_inventory_data` (reclass_parser.py lines 69-101). -/
def get_inventory_data (m : ReclassManager) : Option InventoryData :=
  match m.reclass_path with
  | none => none
  | some _ =>
    if m.dry_run then some { nodes := some [] }
    else m.invOutput

/-- `ReclassManager.list_nodes` (reclass_parser.py lines 103-108):
`list(inventory_data["nodes"].keys())`, in the mapping's own order, with no
sorting. -/
def list_nodes (m : ReclassManager) : List String :=
  match get_inventory_data m with
  | some inv =>
    match inv.nodes with
    | some ns => ns.map Prod.fst
    | none => []
  | none => []

/-- `ReclassManager.get_node_parameters` (reclass_parser.py lines 117-122). -/
def get_node_parameters (m : ReclassManager) (node_name : String) :
    List (String × Json) :=
  match (get_node_data m node_name).1 with
  | some d =>
    match d.parameters with
    | some ps => ps
    | none => []
  | none => []

/-- `ReclassManager.get_node_classes` (reclass_parser.py lines 124-129). -/
def get_node_classes (m : ReclassManager) (node_name : String) : List String :=
  match (get_node_data m node_name).1 with
  | some d =>
    match d.classes with
    | some cs => cs
    | none => []
  | none => []

/-- `ReclassManager.get_nodes_by_class` (reclass_parser.py lines 131-142):
keep, in mapping order, the nodes whose document has a `classes` key
containing `class_name`. -/
def get_nodes_by_class (m : ReclassManager) (class_name : String) : List String :=
  match get_inventory_data m with
  | none => []
  | some inv =>
    match inv.nodes with
    | none => []
    | some ns =>
      (ns.filter fun nd =>
        match nd.2.classes with
        | some cs => class_name ∈ cs
        | none => false).map Prod.fst

/-- Python truthiness of an optional string argument (`if node_filter:`):
`None` and the empty string are falsy. -/
def truthyOpt : Option String → Bool
  | none => false
  | some s => s ≠ ""

/-- The node-filter block of `filter_nodes` (reclass_parser.py lines 214-228):
validate the pattern (an invalid one only logs a warning and leaves the
candidate set unchanged), then filter by the compiled wildcard regex when the
pattern contains `*`, by exact equality otherwise.  The Python candidate set
is represented by a duplicate-free list; only its membership is meaningful. -/
def applyNodeFilter (node_filter : Option String) (s : List String) :
    List String :=
  match node_filter with
  | none => s
  | some f =>
    if f = "" then s
    else
      match InputValidator.validate_filter_pattern f with
      | none => s
      | some pat =>
        if pat.toList.contains '*' then s.filter (fun n => reMatch pat n)
        else s.filter (fun n => n == pat)

/-- The class-filter block of `filter_nodes` (reclass_parser.py lines
230-237): intersect with the nodes carrying the class. -/
def applyClassFilter (m : ReclassManager) (class_filter : Option String)
    (s : List String) : List String :=
  match class_filter with
  | none => s
  | some f =>
    if f = "" then s
    else
      match InputValidator.validate_filter_pattern f with
      | none => s
      | some cf => s.filter fun n => (get_nodes_by_class m cf).contains n

/-- The project-filter block of `filter_nodes` (reclass_parser.py lines
239-250): keep the nodes whose parameters have `params.get("project") ==
project_filter`. -/
def applyProjectFilter (m : ReclassManager) (project_filter : Option String)
    (s : List String) : List String :=
  match project_filter with
  | none => s
  | some f =>
    if f = "" then s
    else
      match InputValidator.validate_filter_pattern f with
      | none => s
      | some pf =>
        s.filter fun node =>
          pyEqStr (List.lookup "project" (get_node_parameters m node)) pf

/-- `ReclassManager.filter_nodes` (reclass_parser.py lines 200-252): with no
(truthy) filter the raw `list_nodes` result is returned unchanged; otherwise
the candidate set `set(all_nodes)` (represented as the duplicate-free list
`all_nodes.dedup`) is narrowed by the three blocks in order and
`sorted(list(...))` of the final set is returned. -/
def filter_nodes (m : ReclassManager) (node_filter class_filter project_filter :
    Option String) : List String :=
  let all_nodes := list_nodes m
  if (truthyOpt node_filter || truthyOpt class_filter || truthyOpt project_filter)
      = false then
    all_nodes
  else
    pySorted
      (applyProjectFilter m project_filter
        (applyClassFilter m class_filter
          (applyNodeFilter node_filter all_nodes.dedup)))

end ReclassManager

/-! ## Filesystem model for `FileManager` and `ReclassParser`

Paths are component lists (`target_dir / "nodes"` appends a component).
Mutating calls are recorded in an effect trace; the outcome of each external
action (`rsync` exit status, `shutil` copy success) comes from an `FS`
oracle.  The internal file-walk of `_python_sync` only moves file contents
around; it is abstracted as a single copy action whose success is
environment-determined, which is the granularity every claim needs. -/

/-- A filesystem path as a list of components. -/
abbrev FPath := List String

/-- `p / c` of `pathlib`. -/
def pjoin (p : FPath) (c : String) : FPath := p ++ [c]

/-- `str(path)` with `/` separators. -/
def pathStr (p : FPath) : String := String.intercalate "/" p

/-- One filesystem-mutating call issued by the engine. -/
inductive FSOp where
  /-- a `Path.mkdir(parents=True, exist_ok=True)` (or `exist_ok=True`) call -/
  | mkdirP (p : FPath)
  /-- a `subprocess.run` of the given rsync command line -/
  | runRsync (cmd : List String)
  /-- the `shutil`-based copy walk of `_python_sync` -/
  | copyTree (source destination : FPath)
  deriving DecidableEq

/-- The filesystem / external-tool oracle. -/
structure FS where
  /-- `path.exists()` -/
  pathExists : FPath → Bool
  /-- whether the rsync subprocess for this source/destination exits cleanly -/
  rsyncOk : FPath → FPath → Bool
  /-- whether the `shutil` copy walk for this source/destination succeeds -/
  copyOk : FPath → FPath → Bool

namespace FileManager

/-- `FileManager._rsync_sync` (file_ops.py lines 46-78): build the command
line (trailing-slash-normalised source), return `True` without running it in
dry-run mode, otherwise run it and report its exit status. -/
def _rsync_sync (dry_run rsync_available : Bool) (fs : FS)
    (source destination : FPath) (options : String) : Bool × List FSOp :=
  if rsync_available = false then (false, [])
  else
    let option_list := pySplit options
    let source_str :=
      let s := pathStr source
      if s.toList.getLast? = some '/' then s else s ++ "/"
    let cmd := ["rsync"] ++ option_list ++ [source_str, pathStr destination]
    if dry_run then (true, [])
    else (fs.rsyncOk source destination, [FSOp.runRsync cmd])

/-- `FileManager._python_sync` (file_ops.py lines 80-110): return `True`
without copying in dry-run mode, otherwise perform the copy walk and report
whether it raised. -/
def _python_sync (dry_run : Bool) (fs : FS) (source destination : FPath)
    (_recursive : Bool) : Bool × List FSOp :=
  if dry_run then (true, [])
  else (fs.copyOk source destination, [FSOp.copyTree source destination])

/-- `FileManager.sync_directories` (file_ops.py lines 26-44): fail
immediately when the source does not exist, then create the destination
(`mkdir(parents=True, exist_ok=True)` — issued before any dry-run check), and
delegate to rsync or the Python fallback. -/
def sync_directories (dry_run rsync_available : Bool) (fs : FS)
    (source destination : FPath) : Bool × List FSOp :=
  if fs.pathExists source = false then (false, [])
  else
    let r :=
      if rsync_available then
        _rsync_sync dry_run rsync_available fs source destination "-a -m --exclude=.keep"
      else
        _python_sync dry_run fs source destination true
    (r.1, FSOp.mkdirP destination :: r.2)

end FileManager

namespace ReclassParser

/-- The per-subdirectory body of the `merge_inventories` source loop
(reclass.py lines 187-195): when `source_dir / sub` exists, synchronise it
into `target_dir / sub` and conjoin the success flag. -/
def merge_substep (dry_run rsync_available : Bool) (fs : FS)
    (target_dir source_dir : FPath) (acc : Bool × List FSOp) (sub : String) :
    Bool × List FSOp :=
  if fs.pathExists (pjoin source_dir sub) then
    let r := FileManager.sync_directories dry_run rsync_available fs
      (pjoin source_dir sub) (pjoin target_dir sub)
    (acc.1 && r.1, acc.2 ++ r.2)
  else acc

/-- One iteration of the `merge_inventories` source loop (reclass.py lines
181-195): a missing source is skipped with a warning; an existing one has its
`nodes` and `classes` subtrees synchronised in order. -/
def merge_step (dry_run rsync_available : Bool) (fs : FS) (target_dir : FPath)
    (acc : Bool × List FSOp) (source_dir : FPath) : Bool × List FSOp :=
  if fs.pathExists source_dir = false then acc
  else
    merge_substep dry_run rsync_available fs target_dir source_dir
      (merge_substep dry_run rsync_available fs target_dir source_dir acc "nodes")
      "classes"

/-- `ReclassParser.merge_inventories` (reclass.py lines 170-197): create the
target tree (unconditionally, before any dry-run check), then fold the source
loop, starting from `success = True`. -/
def merge_inventories (dry_run rsync_available : Bool) (fs : FS)
    (source_dirs : List FPath) (target_dir : FPath) : Bool × List FSOp :=
  let eff0 := [FSOp.mkdirP target_dir, FSOp.mkdirP (pjoin target_dir "nodes"),
    FSOp.mkdirP (pjoin target_dir "classes")]
  source_dirs.foldl (merge_step dry_run rsync_available fs target_dir) (true, eff0)

/-- `PurePath.with_suffix('')` on a single path component: drop the last
`.`-suffix when the final dot is neither the first nor the last character. -/
def with_suffix_empty (s : String) : String :=
  let cs := s.toList
  match (cs.reverse.findIdx? (· = '.')).map (fun j => cs.length - 1 - j) with
  | some i => if 0 < i ∧ i < cs.length - 1 then ⟨cs.take i⟩ else s
  | none => s

/-- `with_suffix('')` applied to the final component of a relative path. -/
def strip_rel_path : List String → List String
  | [] => []
  | [f] => [with_suffix_empty f]
  | c :: rest => c :: strip_rel_path rest

/-- The node name derived from a discovered file's path relative to the
`nodes` directory: `str(rel_path.with_suffix('')).replace('/', '.')`
(reclass.py lines 116-118). -/
def node_name_of_rel_path (rel : List String) : String :=
  String.intercalate "." (strip_rel_path rel)

/-- `ReclassParser` constructor state plus the oracles it consumes:
`yml_files` is the list of paths, relative to `inventory_dir / "nodes"`, of
the files found by `rglob("*.yml")`, and `invOutput` the parsed stdout of the
full-inventory invocation (`none` when it exits non-zero or fails to parse). -/
structure Env where
  inventory_dir : String
  dry_run : Bool
  reclass_path : Option String
  invOutput : Option InventoryData
  nodeOutput : String → Option NodeData
  nodes_dir_exists : Bool
  yml_files : List (List String)

/-- `ReclassParser._scan_nodes_from_filesystem` (reclass.py lines 107-120):
empty when the `nodes` directory is missing, otherwise the sorted list of
derived dotted node names. -/
def _scan_nodes_from_filesystem (p : Env) : List String :=
  if p.nodes_dir_exists = false then []
  else pySorted (p.yml_files.map node_name_of_rel_path)

/-- `ReclassParser.list_nodes` (reclass.py lines 70-105): filesystem scan
when `reclass` is unavailable, canned names in dry-run mode, otherwise the
sorted keys of the inventory's `nodes` mapping, falling back to the scan when
the subprocess fails or its output does not parse. -/
def list_nodes (p : Env) : List String :=
  match p.reclass_path with
  | none => _scan_nodes_from_filesystem p
  | some _ =>
    if p.dry_run then ["example-node1", "example-node2"]
    else
      match p.invOutput with
      | some inv => pySorted ((inv.nodes.getD []).map Prod.fst)
      | none => _scan_nodes_from_filesystem p

/-- `ReclassParser.get_node_data` (reclass.py lines 29-68); the same shape as
the `ReclassManager` version, with the `--output-format` flag. -/
def get_node_data (p : Env) (node_name : String) :
    Option NodeData × List (List String) :=
  match p.reclass_path with
  | none => (none, [])
  | some rp =>
    match InputValidator.sanitize_node_name node_name with
    | none => (none, [])
    | some nm =>
      let cmd := [rp, "-b", p.inventory_dir, "-n", nm, "--output-format", "json"]
      if p.dry_run then
        (some { parameters := some [], classes := some [], applications := some [] }, [])
      else
        (p.nodeOutput nm, [cmd])

/-- `ReclassParser.get_node_parameters` (reclass.py lines 122-127):
`node_data.get('parameters', {})` with `{}` for a missing document. -/
def get_node_parameters (p : Env) (node_name : String) : List (String × Json) :=
  match (get_node_data p node_name).1 with
  | some d =>
    match d.parameters with
    | some ps => ps
    | none => []
  | none => []

/-- `ReclassParser.get_node_classes` (reclass.py lines 129-134). -/
def get_node_classes (p : Env) (node_name : String) : List String :=
  match (get_node_data p node_name).1 with
  | some d =>
    match d.classes with
    | some cs => cs
    | none => []
  | none => []

end ReclassParser

/-! ## Shared concrete fixtures

Small classifier environments used by the concrete parts of the theorems.
`exampleManager` is the spec's worked example: nodes `a1` (class `web`,
project `p1`), `a2` (class `db`, project `p1`), `a3` (class `web`, project
`p2`); its single-node query output agrees with its inventory output.
`unsortedManager` answers the inventory dump with keys in the order
`["b", "a"]`.  `wildcardManager` knows the single node `"axb1"`. -/

def webP1Node : NodeData :=
  { classes := some ["web"], applications := none,
    parameters := some [("project", Json.str "p1")] }

def dbP1Node : NodeData :=
  { classes := some ["db"], applications := none,
    parameters := some [("project", Json.str "p1")] }

def webP2Node : NodeData :=
  { classes := some ["web"], applications := none,
    parameters := some [("project", Json.str "p2")] }

def exampleManager : ReclassManager :=
  { inventory_dir := "inv", dry_run := false, reclass_path := some "reclass",
    invOutput := some { nodes := some [("a1", webP1Node), ("a2", dbP1Node), ("a3", webP2Node)] },
    nodeOutput := fun n =>
      if n = "a1" then some webP1Node
      else if n = "a2" then some dbP1Node
      else if n = "a3" then some webP2Node
      else none }

def unsortedManager : ReclassManager :=
  { inventory_dir := "inv", dry_run := false, reclass_path := some "reclass",
    invOutput := some { nodes := some [("b", webP1Node), ("a", webP1Node)] },
    nodeOutput := fun _ => none }

def wildcardManager : ReclassManager :=
  { inventory_dir := "inv", dry_run := false, reclass_path := some "reclass",
    invOutput := some { nodes := some [("axb1", webP1Node)] },
    nodeOutput := fun _ => none }

/-! ## Helper lemmas -/

theorem pySorted_sorted (l : List String) : List.Sorted strLe (pySorted l) :=
  List.sorted_insertionSort strLe l

theorem pySorted_perm (l : List String) : (pySorted l).Perm l :=
  List.perm_insertionSort strLe l

theorem pySorted_mem {a : String} {l : List String} : a ∈ pySorted l ↔ a ∈ l :=
  (pySorted_perm l).mem_iff

theorem pySorted_nodup {l : List String} (h : l.Nodup) : (pySorted l).Nodup :=
  ((pySorted_perm l).nodup_iff).mpr h

theorem pySorted_sorted_strLt {l : List String} (h : l.Nodup) :
    List.Sorted strLt (pySorted l) :=
  List.Pairwise.and (pySorted_sorted l) (pySorted_nodup h)

theorem validate_some_ne_empty {p q : String}
    (h : InputValidator.validate_filter_pattern p = some q) : q ≠ "" := by
  unfold InputValidator.validate_filter_pattern at h
  split at h
  · exact Option.noConfusion h
  · split at h
    · cases Option.some_inj.mp h
      assumption
    · exact Option.noConfusion h

namespace ReclassManager

theorem applyNodeFilter_skip {f : String}
    (h : InputValidator.validate_filter_pattern f = none) (s : List String) :
    applyNodeFilter (some f) s = s := by
  unfold applyNodeFilter
  by_cases hf : f = ""
  · simp [hf]
  · simp [hf, h]

theorem applyClassFilter_skip {m : ReclassManager} {f : String}
    (h : InputValidator.validate_filter_pattern f = none) (s : List String) :
    applyClassFilter m (some f) s = s := by
  unfold applyClassFilter
  by_cases hf : f = ""
  · simp [hf]
  · simp [hf, h]

theorem applyProjectFilter_skip {m : ReclassManager} {f : String}
    (h : InputValidator.validate_filter_pattern f = none) (s : List String) :
    applyProjectFilter m (some f) s = s := by
  unfold applyProjectFilter
  by_cases hf : f = ""
  · simp [hf]
  · simp [hf, h]

theorem applyNodeFilter_untruthy {nf : Option String} (h : truthyOpt nf = false)
    (s : List String) : applyNodeFilter nf s = s := by
  cases nf with
  | none => rfl
  | some f =>
    have hf : f = "" := by simpa [truthyOpt] using h
    simp [applyNodeFilter, hf]

theorem applyClassFilter_untruthy {m : ReclassManager} {cf : Option String}
    (h : truthyOpt cf = false) (s : List String) : applyClassFilter m cf s = s := by
  cases cf with
  | none => rfl
  | some f =>
    have hf : f = "" := by simpa [truthyOpt] using h
    simp [applyClassFilter, hf]

theorem applyProjectFilter_untruthy {m : ReclassManager} {pf : Option String}
    (h : truthyOpt pf = false) (s : List String) : applyProjectFilter m pf s = s := by
  cases pf with
  | none => rfl
  | some f =>
    have hf : f = "" := by simpa [truthyOpt] using h
    simp [applyProjectFilter, hf]

theorem applyNodeFilter_sublist (nf : Option String) (s : List String) :
    (applyNodeFilter nf s).Sublist s := by
  unfold applyNodeFilter
  cases nf with
  | none => exact List.Sublist.refl s
  | some f =>
    by_cases hf : f = ""
    · simp [hf]
    · cases hv : InputValidator.validate_filter_pattern f with
      | none => simp [hf, hv]
      | some pat =>
        dsimp only
        rw [if_neg hf]
        simp only [hv]
        split
        · exact List.filter_sublist s
        · exact List.filter_sublist s

theorem applyClassFilter_sublist (m : ReclassManager) (cf : Option String)
    (s : List String) : (applyClassFilter m cf s).Sublist s := by
  unfold applyClassFilter
  cases cf with
  | none => exact List.Sublist.refl s
  | some f =>
    by_cases hf : f = ""
    · simp [hf]
    · cases hv : InputValidator.validate_filter_pattern f with
      | none => simp [hf, hv]
      | some c => simp [hf, hv, List.filter_sublist]

theorem applyProjectFilter_sublist (m : ReclassManager) (pf : Option String)
    (s : List String) : (applyProjectFilter m pf s).Sublist s := by
  unfold applyProjectFilter
  cases pf with
  | none => exact List.Sublist.refl s
  | some f =>
    by_cases hf : f = ""
    · simp [hf]
    · cases hv : InputValidator.validate_filter_pattern f with
      | none => simp [hf, hv]
      | some c => simp [hf, hv, List.filter_sublist]

theorem filter_nodes_no_filters (m : ReclassManager) :
    filter_nodes m none none none = list_nodes m := rfl

theorem filter_nodes_guard {m : ReclassManager} {nf cf pf : Option String}
    (h : (truthyOpt nf || truthyOpt cf || truthyOpt pf) = true) :
    filter_nodes m nf cf pf =
      pySorted (applyProjectFilter m pf
        (applyClassFilter m cf (applyNodeFilter nf (list_nodes m).dedup))) := by
  unfold filter_nodes
  simp [h]

end ReclassManager

theorem pyEqStr_iff {v : Option Json} {t : String} :
    pyEqStr v t = true ↔ v = some (Json.str t) := by
  cases v with
  | none => simp [pyEqStr]
  | some j => cases j <;> simp [pyEqStr]

namespace ReclassManager

theorem mem_applyProjectFilter {m : ReclassManager} {pf : String}
    {s : List String} {n : String}
    (hv : InputValidator.validate_filter_pattern pf = some pf) :
    n ∈ applyProjectFilter m (some pf) s ↔
      n ∈ s ∧ List.lookup "project" (get_node_parameters m n) = some (Json.str pf) := by
  have hne : pf ≠ "" := validate_some_ne_empty hv
  unfold applyProjectFilter
  dsimp only
  rw [if_neg hne]
  simp only [hv, List.mem_filter, pyEqStr_iff]

theorem mem_applyClassFilter {m : ReclassManager} {cf : String}
    {s : List String} {n : String}
    (hv : InputValidator.validate_filter_pattern cf = some cf) :
    n ∈ applyClassFilter m (some cf) s ↔ n ∈ s ∧ n ∈ get_nodes_by_class m cf := by
  have hne : cf ≠ "" := validate_some_ne_empty hv
  unfold applyClassFilter
  dsimp only
  rw [if_neg hne]
  simp only [hv, List.mem_filter, List.elem_iff]

theorem mem_applyNodeFilter_star {pat : String} {s : List String} {n : String}
    (hv : InputValidator.validate_filter_pattern pat = some pat)
    (hstar : pat.toList.contains '*' = true) :
    n ∈ applyNodeFilter (some pat) s ↔ n ∈ s ∧ reMatch pat n = true := by
  have hne : pat ≠ "" := validate_some_ne_empty hv
  unfold applyNodeFilter
  dsimp only
  rw [if_neg hne]
  simp only [hv]
  rw [if_pos hstar]
  simp [List.mem_filter]

theorem mem_applyNodeFilter_exact {pat : String} {s : List String} {n : String}
    (hv : InputValidator.validate_filter_pattern pat = some pat)
    (hstar : pat.toList.contains '*' = false) :
    n ∈ applyNodeFilter (some pat) s ↔ n ∈ s ∧ n = pat := by
  have hne : pat ≠ "" := validate_some_ne_empty hv
  unfold applyNodeFilter
  dsimp only
  rw [if_neg hne]
  simp only [hv]
  rw [if_neg (by rw [hstar]; exact Bool.false_ne_true)]
  simp [List.mem_filter]

theorem mem_get_nodes_by_class {m : ReclassManager} {rp : String}
    {inv : InventoryData} {ns : List (String × NodeData)} {cf n : String}
    (hrp : m.reclass_path = some rp) (hdry : m.dry_run = false)
    (hinv : m.invOutput = some inv) (hns : inv.nodes = some ns) :
    n ∈ get_nodes_by_class m cf ↔
      ∃ d, (n, d) ∈ ns ∧ ∃ cs, d.classes = some cs ∧ cf ∈ cs := by
  have hid : get_inventory_data m = some inv := by
    unfold get_inventory_data
    rw [hrp]
    simp [hdry, hinv]
  unfold get_nodes_by_class
  rw [hid]
  dsimp only
  rw [hns]
  dsimp only
  simp only [List.mem_map, List.mem_filter]
  constructor
  · rintro ⟨⟨a, d⟩, ⟨hmem, hp⟩, ha⟩
    dsimp only at hp ha
    subst ha
    refine ⟨d, hmem, ?_⟩
    cases hcs : d.classes with
    | none => rw [hcs] at hp; exact absurd hp (by simp)
    | some cs =>
      rw [hcs] at hp
      exact ⟨cs, rfl, of_decide_eq_true hp⟩
  · rintro ⟨d, hmem, cs, hcs, hcf⟩
    refine ⟨(n, d), ⟨hmem, ?_⟩, rfl⟩
    dsimp only
    rw [hcs]
    exact decide_eq_true hcf

end ReclassManager

/-! ## Claim C1 -/

/-- C1 (counterexample): the claim says the list returned by `filter_nodes`
is strictly sorted for **every** filter specification, including the empty
one.  With no (truthy) filter, however, `filter_nodes` returns the raw
`list_nodes` listing unchanged — `ReclassManager.list_nodes` does not sort —
so a classifier answering with keys in the order `["b", "a"]` makes the
result `["b", "a"]`, which is not sorted. -/
theorem C1_counterexample_empty_spec_unsorted :
    ReclassManager.filter_nodes unsortedManager none none none = ["b", "a"] ∧
    ¬ List.Sorted strLt (ReclassManager.filter_nodes unsortedManager none none none) := by
  constructor
  · rfl
  · decide

/-- C1 (amended): whenever at least one truthy filter is supplied, the list
returned by `filter_nodes` is strictly sorted (hence duplicate-free) in
code-point lexicographic order, regardless of the order of the underlying
node listing; with the empty specification the raw `list_nodes` listing is
returned unchanged (duplicate-free as the keys of a mapping, but in listing
order, not sorted). -/
theorem C1_filter_results_normalized :
    (∀ (m : ReclassManager) (nf cf pf : Option String),
      (ReclassManager.truthyOpt nf || ReclassManager.truthyOpt cf ||
        ReclassManager.truthyOpt pf) = true →
      List.Sorted strLt (ReclassManager.filter_nodes m nf cf pf)) ∧
    (∀ m : ReclassManager,
      ReclassManager.filter_nodes m none none none = ReclassManager.list_nodes m) := by
  constructor
  · intro m nf cf pf h
    rw [ReclassManager.filter_nodes_guard h]
    apply pySorted_sorted_strLt
    have h0 : (ReclassManager.list_nodes m).dedup.Nodup := List.nodup_dedup _
    have h1 := (ReclassManager.applyNodeFilter_sublist nf _).nodup h0
    exact (ReclassManager.applyProjectFilter_sublist m pf _).nodup
      ((ReclassManager.applyClassFilter_sublist m cf _).nodup h1)
  · intro m
    rfl

/-- C1 witness: the sortedness half applied to a concrete manager and a
concrete non-empty filter specification. -/
theorem C1_filter_results_normalized_witness :
    (ReclassManager.truthyOpt none || ReclassManager.truthyOpt (some "web") ||
      ReclassManager.truthyOpt none) = true ∧
    List.Sorted strLt
      (ReclassManager.filter_nodes unsortedManager none (some "web") none) :=
  ⟨by decide,
    C1_filter_results_normalized.1 unsortedManager none (some "web") none (by decide)⟩

/-! ## Claim C2 -/

/-- C2: a node passes the class filter exactly when the class name is an
element of the node's `classes` sequence in the inventory document; a node
passes the project filter exactly when its parameters have the top-level key
`"project"` bound to exactly the given string; and on the spec's worked
example (`a1` web/p1, `a2` db/p1, `a3` web/p2) filtering by class `web` and
project `p1` yields `["a1"]` while filtering by project `p1` alone yields
`["a1", "a2"]`. -/
theorem C2_class_and_project_filter_semantics :
    (∀ (m : ReclassManager) (rp : String) (inv : InventoryData)
        (ns : List (String × NodeData)) (cf n : String),
      m.reclass_path = some rp → m.dry_run = false → m.invOutput = some inv →
      inv.nodes = some ns →
      (n ∈ ReclassManager.get_nodes_by_class m cf ↔
        ∃ d, (n, d) ∈ ns ∧ ∃ cs, d.classes = some cs ∧ cf ∈ cs)) ∧
    (∀ (m : ReclassManager) (pf n : String),
      InputValidator.validate_filter_pattern pf = some pf →
      (n ∈ ReclassManager.filter_nodes m none none (some pf) ↔
        n ∈ ReclassManager.list_nodes m ∧
          List.lookup "project" (ReclassManager.get_node_parameters m n) =
            some (Json.str pf))) ∧
    ReclassManager.filter_nodes exampleManager none (some "web") (some "p1") = ["a1"] ∧
    ReclassManager.filter_nodes exampleManager none none (some "p1") = ["a1", "a2"] := by
  refine ⟨?_, ?_, by decide, by decide⟩
  · intro m rp inv ns cf n hrp hdry hinv hns
    exact ReclassManager.mem_get_nodes_by_class hrp hdry hinv hns
  · intro m pf n hv
    have hne : pf ≠ "" := validate_some_ne_empty hv
    have hguard : (ReclassManager.truthyOpt none || ReclassManager.truthyOpt none ||
        ReclassManager.truthyOpt (some pf)) = true := by
      simp [ReclassManager.truthyOpt, hne]
    rw [ReclassManager.filter_nodes_guard hguard, pySorted_mem]
    have hid : ReclassManager.applyClassFilter m none
        (ReclassManager.applyNodeFilter none ((ReclassManager.list_nodes m).dedup)) =
        (ReclassManager.list_nodes m).dedup := rfl
    rw [hid, ReclassManager.mem_applyProjectFilter hv, List.mem_dedup]

/-- C2 witness: the project-filter characterisation applied to the worked
example at node `a1` and project `p1`. -/
theorem C2_class_and_project_filter_semantics_witness :
    InputValidator.validate_filter_pattern "p1" = some "p1" ∧
    ("a1" ∈ ReclassManager.filter_nodes exampleManager none none (some "p1") ↔
      "a1" ∈ ReclassManager.list_nodes exampleManager ∧
        List.lookup "project"
          (ReclassManager.get_node_parameters exampleManager "a1") =
          some (Json.str "p1")) :=
  ⟨by decide, C2_class_and_project_filter_semantics.2.1 exampleManager "p1" "a1" (by decide)⟩

/-! ## Claim C3 -/

theorem reMatchAux_append (pat : List Char) :
    ∀ s t : List Char, reMatchAux pat s = true → reMatchAux pat (s ++ t) = true := by
  induction pat with
  | nil => intro s t _; rfl
  | cons p ps ih =>
    intro s t h
    by_cases hstar : p = '*'
    · subst hstar
      have hstar_eq : ∀ u : List Char,
          reMatchAux ('*' :: ps) u = u.tails.any fun t => reMatchAux ps t := by
        intro u
        rw [show reMatchAux ('*' :: ps) u =
            if '*' = '*' then u.tails.any (fun t => reMatchAux ps t)
            else match u with
              | [] => false
              | c :: u' => (if '*' = '.' then true else '*' = c) && reMatchAux ps u'
          from rfl, if_pos rfl]
      rw [hstar_eq] at h
      rw [hstar_eq]
      rw [List.any_eq_true] at h ⊢
      rcases h with ⟨u, hu, hm⟩
      refine ⟨u ++ t, ?_, ih u t hm⟩
      rw [List.mem_tails] at hu ⊢
      rcases hu with ⟨w, rfl⟩
      exact ⟨w, (List.append_assoc w u t).symm⟩
    · have hcons : ∀ u : List Char, reMatchAux (p :: ps) u =
          match u with
          | [] => false
          | c :: u' => (if p = '.' then true else p = c) && reMatchAux ps u' := by
        intro u
        rw [show reMatchAux (p :: ps) u =
            if p = '*' then u.tails.any (fun t => reMatchAux ps t)
            else match u with
              | [] => false
              | c :: u' => (if p = '.' then true else p = c) && reMatchAux ps u'
          from rfl, if_neg hstar]
      cases s with
      | nil =>
        rw [hcons] at h
        exact absurd h (by simp)
      | cons c s' =>
        rw [hcons] at h
        rw [List.cons_append, hcons]
        simp only [Bool.and_eq_true] at h ⊢
        exact ⟨h.1, ih s' t h.2⟩

/-- A fleet with nodes `web-02`, `web-01`, `db-01` (listed unsorted). -/
def webFleetManager : ReclassManager :=
  { inventory_dir := "inv", dry_run := false, reclass_path := some "reclass",
    invOutput := some { nodes := some [("web-02", webP1Node), ("web-01", webP1Node), ("db-01", dbP1Node)] },
    nodeOutput := fun _ => none }

/-- C3 (counterexample): the claim reads a `*`-containing pattern as "each
`*` stands for any sequence of characters", all other characters standing for
themselves.  The code instead hands the pattern to `re`, where `.` also
matches any single character: the valid pattern `"a.b*"` selects the node
`"axb1"`, which the claim's semantics rejects. -/
theorem C3_counterexample_dot_acts_as_wildcard :
    InputValidator.validate_filter_pattern "a.b*" = some "a.b*" ∧
    ReclassManager.filter_nodes wildcardManager (some "a.b*") none none = ["axb1"] ∧
    claimWildcardMatch "a.b*" "axb1" = false := by
  refine ⟨by decide, by decide, by decide⟩

/-- C3 (amended): for a valid pattern containing `*`, a candidate is kept
exactly when the regex built from the pattern (`*` → any sequence, `.` → any
single character, all other characters literal) matches a prefix of the
candidate; matching is anchored at the start but need not cover the whole
name (matching is stable under appending to the candidate); a valid pattern
without `*` keeps exactly the candidates equal to it; and the spec's examples
hold: `web-*` matches `web-01` and `web-02` but not `db-01` and not the
containment candidate `xweb-01`, and `web-01` matches only itself. -/
theorem C3_wildcard_prefix_semantics :
    (∀ (m : ReclassManager) (pat n : String),
      InputValidator.validate_filter_pattern pat = some pat →
      pat.toList.contains '*' = true →
      (n ∈ ReclassManager.filter_nodes m (some pat) none none ↔
        n ∈ ReclassManager.list_nodes m ∧ reMatch pat n = true)) ∧
    (∀ (m : ReclassManager) (pat n : String),
      InputValidator.validate_filter_pattern pat = some pat →
      pat.toList.contains '*' = false →
      (n ∈ ReclassManager.filter_nodes m (some pat) none none ↔
        n ∈ ReclassManager.list_nodes m ∧ n = pat)) ∧
    (∀ (pat s t : List Char), reMatchAux pat s = true →
      reMatchAux pat (s ++ t) = true) ∧
    (reMatch "web-*" "web-01" = true ∧ reMatch "web-*" "web-02" = true ∧
      reMatch "web-*" "db-01" = false ∧ reMatch "web-*" "xweb-01" = false ∧
      ReclassManager.filter_nodes webFleetManager (some "web-*") none none =
        ["web-01", "web-02"] ∧
      ReclassManager.filter_nodes webFleetManager (some "web-01") none none =
        ["web-01"]) := by
  refine ⟨?_, ?_, reMatchAux_append, by decide, by decide, by decide, by decide,
    by decide, by decide⟩
  · intro m pat n hv hstar
    have hne : pat ≠ "" := validate_some_ne_empty hv
    have hguard : (ReclassManager.truthyOpt (some pat) || ReclassManager.truthyOpt none ||
        ReclassManager.truthyOpt none) = true := by
      simp [ReclassManager.truthyOpt, hne]
    rw [ReclassManager.filter_nodes_guard hguard, pySorted_mem]
    have hid : ReclassManager.applyProjectFilter m none
        (ReclassManager.applyClassFilter m none
          (ReclassManager.applyNodeFilter (some pat) ((ReclassManager.list_nodes m).dedup))) =
        ReclassManager.applyNodeFilter (some pat) ((ReclassManager.list_nodes m).dedup) := rfl
    rw [hid, ReclassManager.mem_applyNodeFilter_star hv hstar, List.mem_dedup]
  · intro m pat n hv hstar
    have hne : pat ≠ "" := validate_some_ne_empty hv
    have hguard : (ReclassManager.truthyOpt (some pat) || ReclassManager.truthyOpt none ||
        ReclassManager.truthyOpt none) = true := by
      simp [ReclassManager.truthyOpt, hne]
    rw [ReclassManager.filter_nodes_guard hguard, pySorted_mem]
    have hid : ReclassManager.applyProjectFilter m none
        (ReclassManager.applyClassFilter m none
          (ReclassManager.applyNodeFilter (some pat) ((ReclassManager.list_nodes m).dedup))) =
        ReclassManager.applyNodeFilter (some pat) ((ReclassManager.list_nodes m).dedup) := rfl
    rw [hid, ReclassManager.mem_applyNodeFilter_exact hv hstar, List.mem_dedup]

/-- C3 witness: the `*`-pattern characterisation applied to the fleet example
at pattern `web-*` and node `web-01`. -/
theorem C3_wildcard_prefix_semantics_witness :
    InputValidator.validate_filter_pattern "web-*" = some "web-*" ∧
    "web-*".toList.contains '*' = true ∧
    ("web-01" ∈ ReclassManager.filter_nodes webFleetManager (some "web-*") none none ↔
      "web-01" ∈ ReclassManager.list_nodes webFleetManager ∧
        reMatch "web-*" "web-01" = true) :=
  ⟨by decide, by decide,
    C3_wildcard_prefix_semantics.1 webFleetManager "web-*" "web-01" (by decide) (by decide)⟩

/-! ## Claim C4 -/

namespace ReclassManager

theorem filter_nodes_no_guard {m : ReclassManager} {nf cf pf : Option String}
    (h : (truthyOpt nf || truthyOpt cf || truthyOpt pf) = false) :
    filter_nodes m nf cf pf = list_nodes m := by
  unfold filter_nodes
  simp [h]

end ReclassManager

/-- C4 (counterexample): when the *only* supplied filter is invalid, the
claim says the result equals the result with that filter omitted.  But an
invalid-but-truthy filter still routes `filter_nodes` through the final
`sorted(list(set(...)))` normalization, while the no-filter call returns the
raw listing: with listing order `["b", "a"]` and the invalid class filter
`";;"` the two results are `["a", "b"]` and `["b", "a"]`. -/
theorem C4_counterexample_sole_invalid_filter_sorts :
    InputValidator.validate_filter_pattern ";;" = none ∧
    ReclassManager.filter_nodes unsortedManager none (some ";;") none = ["a", "b"] ∧
    ReclassManager.filter_nodes unsortedManager none none none = ["b", "a"] ∧
    ReclassManager.filter_nodes unsortedManager none (some ";;") none ≠
      ReclassManager.filter_nodes unsortedManager none none none :=
  ⟨by decide, by decide, by decide, by decide⟩

/-- C4 (amended): an invalid (validation-failing, non-empty) filter value is
skipped without raising and without emptying the result: the outcome contains
exactly the same node names as the same call with that filter omitted.  The
two results are equal as lists whenever some other supplied filter is truthy;
when the invalid filter was the only one supplied, the result is the
sorted deduplication of the raw listing rather than the raw listing itself.
This holds for the class, node, and project filter positions alike. -/
theorem C4_invalid_filter_skipped :
    (∀ (m : ReclassManager) (nf pf : Option String) (f : String),
      InputValidator.validate_filter_pattern f = none → f ≠ "" →
      ((∀ n, n ∈ ReclassManager.filter_nodes m nf (some f) pf ↔
          n ∈ ReclassManager.filter_nodes m nf none pf) ∧
        ((ReclassManager.truthyOpt nf || ReclassManager.truthyOpt pf) = true →
          ReclassManager.filter_nodes m nf (some f) pf =
            ReclassManager.filter_nodes m nf none pf) ∧
        ((ReclassManager.truthyOpt nf || ReclassManager.truthyOpt pf) = false →
          ReclassManager.filter_nodes m nf (some f) pf =
            pySorted (ReclassManager.list_nodes m).dedup))) ∧
    (∀ (m : ReclassManager) (cf pf : Option String) (f : String),
      InputValidator.validate_filter_pattern f = none → f ≠ "" →
      ((∀ n, n ∈ ReclassManager.filter_nodes m (some f) cf pf ↔
          n ∈ ReclassManager.filter_nodes m none cf pf) ∧
        ((ReclassManager.truthyOpt cf || ReclassManager.truthyOpt pf) = true →
          ReclassManager.filter_nodes m (some f) cf pf =
            ReclassManager.filter_nodes m none cf pf) ∧
        ((ReclassManager.truthyOpt cf || ReclassManager.truthyOpt pf) = false →
          ReclassManager.filter_nodes m (some f) cf pf =
            pySorted (ReclassManager.list_nodes m).dedup))) ∧
    (∀ (m : ReclassManager) (nf cf : Option String) (f : String),
      InputValidator.validate_filter_pattern f = none → f ≠ "" →
      ((∀ n, n ∈ ReclassManager.filter_nodes m nf cf (some f) ↔
          n ∈ ReclassManager.filter_nodes m nf cf none) ∧
        ((ReclassManager.truthyOpt nf || ReclassManager.truthyOpt cf) = true →
          ReclassManager.filter_nodes m nf cf (some f) =
            ReclassManager.filter_nodes m nf cf none) ∧
        ((ReclassManager.truthyOpt nf || ReclassManager.truthyOpt cf) = false →
          ReclassManager.filter_nodes m nf cf (some f) =
            pySorted (ReclassManager.list_nodes m).dedup))) := by
  refine ⟨?_, ?_, ?_⟩
  · intro m nf pf f hval hne
    have htr : ReclassManager.truthyOpt (some f) = true := by
      simp [ReclassManager.truthyOpt, hne]
    have hguard : (ReclassManager.truthyOpt nf || ReclassManager.truthyOpt (some f) ||
        ReclassManager.truthyOpt pf) = true := by simp [htr]
    have hskip : ReclassManager.filter_nodes m nf (some f) pf =
        pySorted (ReclassManager.applyProjectFilter m pf
          (ReclassManager.applyNodeFilter nf (ReclassManager.list_nodes m).dedup)) := by
      rw [ReclassManager.filter_nodes_guard hguard,
        ReclassManager.applyClassFilter_skip hval]
    refine ⟨?_, ?_, ?_⟩
    · intro n
      by_cases hop : (ReclassManager.truthyOpt nf || ReclassManager.truthyOpt pf) = true
      · have hguard2 : (ReclassManager.truthyOpt nf || ReclassManager.truthyOpt none ||
            ReclassManager.truthyOpt pf) = true := by
          simpa [ReclassManager.truthyOpt] using hop
        rw [hskip, ReclassManager.filter_nodes_guard hguard2]
        exact Iff.rfl
      · have hop' := Bool.or_eq_false_iff.mp (Bool.eq_false_iff.mpr hop)
        have hguard2 : (ReclassManager.truthyOpt nf || ReclassManager.truthyOpt none ||
            ReclassManager.truthyOpt pf) = false := by
          rw [hop'.1, hop'.2]
          rfl
        rw [hskip, ReclassManager.filter_nodes_no_guard hguard2,
          ReclassManager.applyNodeFilter_untruthy hop'.1,
          ReclassManager.applyProjectFilter_untruthy hop'.2,
          pySorted_mem, List.mem_dedup]
    · intro hop
      have hguard2 : (ReclassManager.truthyOpt nf || ReclassManager.truthyOpt none ||
          ReclassManager.truthyOpt pf) = true := by
        simpa [ReclassManager.truthyOpt] using hop
      rw [hskip, ReclassManager.filter_nodes_guard hguard2]
      rfl
    · intro hop
      have hop' := Bool.or_eq_false_iff.mp hop
      rw [hskip, ReclassManager.applyNodeFilter_untruthy hop'.1,
        ReclassManager.applyProjectFilter_untruthy hop'.2]
  · intro m cf pf f hval hne
    have htr : ReclassManager.truthyOpt (some f) = true := by
      simp [ReclassManager.truthyOpt, hne]
    have hguard : (ReclassManager.truthyOpt (some f) || ReclassManager.truthyOpt cf ||
        ReclassManager.truthyOpt pf) = true := by simp [htr]
    have hskip : ReclassManager.filter_nodes m (some f) cf pf =
        pySorted (ReclassManager.applyProjectFilter m pf
          (ReclassManager.applyClassFilter m cf (ReclassManager.list_nodes m).dedup)) := by
      rw [ReclassManager.filter_nodes_guard hguard,
        ReclassManager.applyNodeFilter_skip hval]
    refine ⟨?_, ?_, ?_⟩
    · intro n
      by_cases hop : (ReclassManager.truthyOpt cf || ReclassManager.truthyOpt pf) = true
      · have hguard2 : (ReclassManager.truthyOpt none || ReclassManager.truthyOpt cf ||
            ReclassManager.truthyOpt pf) = true := by
          simpa [ReclassManager.truthyOpt] using hop
        rw [hskip, ReclassManager.filter_nodes_guard hguard2]
        exact Iff.rfl
      · have hop' := Bool.or_eq_false_iff.mp (Bool.eq_false_iff.mpr hop)
        have hguard2 : (ReclassManager.truthyOpt none || ReclassManager.truthyOpt cf ||
            ReclassManager.truthyOpt pf) = false := by
          rw [hop'.1, hop'.2]
          rfl
        rw [hskip, ReclassManager.filter_nodes_no_guard hguard2,
          ReclassManager.applyClassFilter_untruthy hop'.1,
          ReclassManager.applyProjectFilter_untruthy hop'.2,
          pySorted_mem, List.mem_dedup]
    · intro hop
      have hguard2 : (ReclassManager.truthyOpt none || ReclassManager.truthyOpt cf ||
          ReclassManager.truthyOpt pf) = true := by
        simpa [ReclassManager.truthyOpt] using hop
      rw [hskip, ReclassManager.filter_nodes_guard hguard2]
      rfl
    · intro hop
      have hop' := Bool.or_eq_false_iff.mp hop
      rw [hskip, ReclassManager.applyClassFilter_untruthy hop'.1,
        ReclassManager.applyProjectFilter_untruthy hop'.2]
  · intro m nf cf f hval hne
    have htr : ReclassManager.truthyOpt (some f) = true := by
      simp [ReclassManager.truthyOpt, hne]
    have hguard : (ReclassManager.truthyOpt nf || ReclassManager.truthyOpt cf ||
        ReclassManager.truthyOpt (some f)) = true := by simp [htr]
    have hskip : ReclassManager.filter_nodes m nf cf (some f) =
        pySorted (ReclassManager.applyClassFilter m cf
          (ReclassManager.applyNodeFilter nf (ReclassManager.list_nodes m).dedup)) := by
      rw [ReclassManager.filter_nodes_guard hguard,
        ReclassManager.applyProjectFilter_skip hval]
    refine ⟨?_, ?_, ?_⟩
    · intro n
      by_cases hop : (ReclassManager.truthyOpt nf || ReclassManager.truthyOpt cf) = true
      · have hguard2 : (ReclassManager.truthyOpt nf || ReclassManager.truthyOpt cf ||
            ReclassManager.truthyOpt none) = true := by
          simpa [ReclassManager.truthyOpt] using hop
        rw [hskip, ReclassManager.filter_nodes_guard hguard2]
        exact Iff.rfl
      · have hop' := Bool.or_eq_false_iff.mp (Bool.eq_false_iff.mpr hop)
        have hguard2 : (ReclassManager.truthyOpt nf || ReclassManager.truthyOpt cf ||
            ReclassManager.truthyOpt none) = false := by
          rw [hop'.1, hop'.2]
          rfl
        rw [hskip, ReclassManager.filter_nodes_no_guard hguard2,
          ReclassManager.applyNodeFilter_untruthy hop'.1,
          ReclassManager.applyClassFilter_untruthy hop'.2,
          pySorted_mem, List.mem_dedup]
    · intro hop
      have hguard2 : (ReclassManager.truthyOpt nf || ReclassManager.truthyOpt cf ||
          ReclassManager.truthyOpt none) = true := by
        simpa [ReclassManager.truthyOpt] using hop
      rw [hskip, ReclassManager.filter_nodes_guard hguard2]
      rfl
    · intro hop
      have hop' := Bool.or_eq_false_iff.mp hop
      rw [hskip, ReclassManager.applyNodeFilter_untruthy hop'.1,
        ReclassManager.applyClassFilter_untruthy hop'.2]

/-- C4 witness: the class-position statement applied to a concrete manager,
an invalid filter `";;"` and a truthy accompanying project filter. -/
theorem C4_invalid_filter_skipped_witness :
    InputValidator.validate_filter_pattern ";;" = none ∧ (";;" : String) ≠ "" ∧
    (ReclassManager.truthyOpt none || ReclassManager.truthyOpt (some "p1")) = true ∧
    ReclassManager.filter_nodes exampleManager none (some ";;") (some "p1") =
      ReclassManager.filter_nodes exampleManager none none (some "p1") :=
  ⟨by decide, by decide, by decide,
    (C4_invalid_filter_skipped.1 exampleManager none (some "p1") ";;"
      (by decide) (by decide)).2.1 (by decide)⟩

/-! ## Claims C5, C6, C9 — merge and synchronization

Characterisations (stated from the embedded `sync_directories`) of one
source's contribution to a merge: whether its per-subtree synchronizations
succeeded-or-were-skipped, and the effect trace it contributes. -/

namespace ReclassParser

/-- The success flag contributed by one subtree of one source. -/
def subdir_ok (dry_run rsync_available : Bool) (fs : FS)
    (target_dir source_dir : FPath) (sub : String) : Bool :=
  !fs.pathExists (pjoin source_dir sub) ||
    (FileManager.sync_directories dry_run rsync_available fs
      (pjoin source_dir sub) (pjoin target_dir sub)).1

/-- Whether one source of a merge succeeds: a missing source counts as
success (it is skipped with a warning), an existing one succeeds when both of
its existing subtrees synchronise. -/
def source_ok (dry_run rsync_available : Bool) (fs : FS)
    (target_dir source_dir : FPath) : Bool :=
  !fs.pathExists source_dir ||
    (subdir_ok dry_run rsync_available fs target_dir source_dir "nodes" &&
      subdir_ok dry_run rsync_available fs target_dir source_dir "classes")

/-- The effect trace contributed by one source of a merge. -/
def source_effects (dry_run rsync_available : Bool) (fs : FS)
    (target_dir source_dir : FPath) : List FSOp :=
  if fs.pathExists source_dir = false then []
  else
    (if fs.pathExists (pjoin source_dir "nodes") then
      (FileManager.sync_directories dry_run rsync_available fs
        (pjoin source_dir "nodes") (pjoin target_dir "nodes")).2
    else []) ++
    (if fs.pathExists (pjoin source_dir "classes") then
      (FileManager.sync_directories dry_run rsync_available fs
        (pjoin source_dir "classes") (pjoin target_dir "classes")).2
    else [])

theorem merge_step_eq (dry_run rsync_available : Bool) (fs : FS)
    (target_dir source_dir : FPath) (b : Bool) (e : List FSOp) :
    merge_step dry_run rsync_available fs target_dir (b, e) source_dir =
      (b && source_ok dry_run rsync_available fs target_dir source_dir,
        e ++ source_effects dry_run rsync_available fs target_dir source_dir) := by
  unfold merge_step merge_substep source_ok subdir_ok source_effects
  by_cases h : fs.pathExists source_dir = false
  · simp [h]
  · have h' : fs.pathExists source_dir = true := by
      simpa using h
    by_cases hn : fs.pathExists (pjoin source_dir "nodes") = true <;>
      by_cases hc : fs.pathExists (pjoin source_dir "classes") = true <;>
        simp [h', hn, hc, Bool.and_assoc, List.append_assoc]

theorem merge_foldl (dry_run rsync_available : Bool) (fs : FS)
    (target_dir : FPath) :
    ∀ (sources : List FPath) (b : Bool) (e : List FSOp),
      sources.foldl (merge_step dry_run rsync_available fs target_dir) (b, e) =
        (b && sources.all (source_ok dry_run rsync_available fs target_dir),
          e ++ sources.flatMap (source_effects dry_run rsync_available fs target_dir)) := by
  intro sources
  induction sources with
  | nil => intro b e; simp
  | cons src rest ih =>
    intro b e
    rw [List.foldl_cons, merge_step_eq, ih]
    simp [Bool.and_assoc, List.append_assoc]

end ReclassParser

/-- Behaviour of `sync_directories` in dry-run mode: fail (with no effect)
when the source is missing, otherwise report success having only issued the
destination `mkdir`. -/
theorem sync_directories_dry_run (rsync_available : Bool) (fs : FS)
    (source destination : FPath) :
    FileManager.sync_directories true rsync_available fs source destination =
      if fs.pathExists source = false then (false, [])
      else (true, [FSOp.mkdirP destination]) := by
  unfold FileManager.sync_directories FileManager._rsync_sync FileManager._python_sync
  by_cases h : fs.pathExists source = false
  · simp [h]
  · cases rsync_available <;> simp [h]

/-- A filesystem in which only `src` exists. -/
def noDirsFS : FS :=
  { pathExists := fun p => p == ["src"], rsyncOk := fun _ _ => true,
    copyOk := fun _ _ => true }

/-- A filesystem in which everything except source `A` exists and every
synchronization succeeds. -/
def bothOkFS : FS :=
  { pathExists := fun p => !(p == ["A"]), rsyncOk := fun _ _ => true,
    copyOk := fun _ _ => true }

/-- A filesystem in which everything exists but rsync fails for `A/nodes`. -/
def firstFailFS : FS :=
  { pathExists := fun _ => true, rsyncOk := fun src _ => !(src == ["A", "nodes"]),
    copyOk := fun _ _ => true }

/-! ## Claim C9 -/

/-- C9: for every source path that does not exist, `sync_directories` returns
`False` — in dry-run mode as well as in real mode — and does so before the
dry-run branch, issuing no filesystem effect at all. -/
theorem C9_sync_missing_source_fails :
    ∀ (dry_run rsync_available : Bool) (fs : FS) (source destination : FPath),
      fs.pathExists source = false →
      FileManager.sync_directories dry_run rsync_available fs source destination =
        (false, []) := by
  intro dry_run rsync_available fs source destination h
  unfold FileManager.sync_directories
  simp [h]

/-- C9 witness: a missing source under dry-run. -/
theorem C9_sync_missing_source_fails_witness :
    noDirsFS.pathExists ["missing"] = false ∧
    FileManager.sync_directories true true noDirsFS ["missing"] ["dst"] = (false, []) :=
  ⟨by decide, C9_sync_missing_source_fails true true noDirsFS ["missing"] ["dst"] (by decide)⟩

/-! ## Claim C6 -/

/-- C6 (counterexample): the claim says dry-run performs no filesystem
mutation whatsoever (no directory creation).  But both `sync_directories`
(file_ops.py line 39) and `merge_inventories` (reclass.py lines 172-176)
issue their `mkdir(parents=True, exist_ok=True)` calls before any dry-run
check: in dry-run mode, syncing onto a non-existent destination still records
a directory creation, and a merge with no sources at all still creates the
target tree. -/
theorem C6_counterexample_dry_run_creates_dirs :
    noDirsFS.pathExists ["src"] = true ∧
    noDirsFS.pathExists ["dst"] = false ∧
    (FileManager.sync_directories true true noDirsFS ["src"] ["dst"]).2 =
      [FSOp.mkdirP ["dst"]] ∧
    (ReclassParser.merge_inventories true true noDirsFS [] ["tgt"]).2 =
      [FSOp.mkdirP ["tgt"], FSOp.mkdirP ["tgt", "nodes"],
        FSOp.mkdirP ["tgt", "classes"]] :=
  ⟨by decide, by decide, by decide, by decide⟩

theorem subdir_ok_dry_run (rsync_available : Bool) (fs : FS)
    (target_dir source_dir : FPath) (sub : String) :
    ReclassParser.subdir_ok true rsync_available fs target_dir source_dir sub = true := by
  unfold ReclassParser.subdir_ok
  by_cases h : fs.pathExists (pjoin source_dir sub) = true
  · rw [sync_directories_dry_run]
    simp [h]
  · have h' : fs.pathExists (pjoin source_dir sub) = false := by simpa using h
    simp [h']

/-- The effect list of one optional subtree synchronization in dry-run. -/
theorem dry_sub_effects (rsync_available : Bool) (fs : FS)
    (target_dir source_dir : FPath) (sub : String) :
    (if fs.pathExists (pjoin source_dir sub) = true then
      (FileManager.sync_directories true rsync_available fs
        (pjoin source_dir sub) (pjoin target_dir sub)).2
    else []) =
      if fs.pathExists (pjoin source_dir sub) = true then
        [FSOp.mkdirP (pjoin target_dir sub)]
      else [] := by
  by_cases h : fs.pathExists (pjoin source_dir sub) = true
  · rw [if_pos h, if_pos h, sync_directories_dry_run]
    simp [h]
  · rw [if_neg h, if_neg h]

/-- C6 (amended): in dry-run mode, with an existing source,
`sync_directories` returns `True` and performs no copy and no external
process invocation — but it does still issue the destination
directory-creation call; likewise `merge_inventories` always returns `True`
in dry-run mode while issuing only directory-creation calls (for the target
tree and the destination of each skipped synchronization). -/
theorem C6_dry_run_no_copies_only_mkdirs :
    (∀ (rsync_available : Bool) (fs : FS) (source destination : FPath),
      fs.pathExists source = true →
      FileManager.sync_directories true rsync_available fs source destination =
        (true, [FSOp.mkdirP destination])) ∧
    (∀ (rsync_available : Bool) (fs : FS) (sources : List FPath) (target : FPath),
      (ReclassParser.merge_inventories true rsync_available fs sources target).1 = true ∧
      ∀ op ∈ (ReclassParser.merge_inventories true rsync_available fs sources target).2,
        ∃ q, op = FSOp.mkdirP q) := by
  constructor
  · intro rsync_available fs source destination h
    rw [sync_directories_dry_run]
    simp [h]
  · intro rsync_available fs sources target
    unfold ReclassParser.merge_inventories
    rw [ReclassParser.merge_foldl]
    constructor
    · simp only [Bool.true_and]
      rw [List.all_eq_true]
      intro src _
      unfold ReclassParser.source_ok
      rw [subdir_ok_dry_run, subdir_ok_dry_run]
      simp
    · intro op hop
      simp only [List.mem_append, List.mem_cons, List.mem_singleton,
        List.not_mem_nil, List.mem_flatMap] at hop
      rcases hop with ((h | h | h | h) | ⟨src, _, h⟩)
      · exact ⟨target, h⟩
      · exact ⟨pjoin target "nodes", h⟩
      · exact ⟨pjoin target "classes", h⟩
      · exact absurd h (by simp)
      · unfold ReclassParser.source_effects at h
        by_cases hsrc : fs.pathExists src = false
        · rw [if_pos hsrc] at h
          exact absurd h (by simp)
        · rw [if_neg hsrc, dry_sub_effects, dry_sub_effects, List.mem_append] at h
          rcases h with h | h
          · by_cases hn : fs.pathExists (pjoin src "nodes") = true
            · rw [if_pos hn] at h
              exact ⟨pjoin target "nodes", List.mem_singleton.mp h⟩
            · rw [if_neg hn] at h
              exact absurd h (by simp)
          · by_cases hc : fs.pathExists (pjoin src "classes") = true
            · rw [if_pos hc] at h
              exact ⟨pjoin target "classes", List.mem_singleton.mp h⟩
            · rw [if_neg hc] at h
              exact absurd h (by simp)

/-- C6 witness: the amended sync statement applied to a concrete filesystem
with an existing source and a missing destination. -/
theorem C6_dry_run_no_copies_only_mkdirs_witness :
    noDirsFS.pathExists ["src"] = true ∧
    FileManager.sync_directories true true noDirsFS ["src"] ["dst"] =
      (true, [FSOp.mkdirP ["dst"]]) :=
  ⟨by decide, C6_dry_run_no_copies_only_mkdirs.1 true noDirsFS ["src"] ["dst"] (by decide)⟩

/-! ## Claim C5 -/

/-- C5: the merge returns `True` exactly when every source is either missing
(skipped with a warning, not a failure) or has all its existing subtrees
synchronise successfully; the effect trace is the target-tree creation
followed by each source's own contribution, independent of the other
sources' success (best-effort, not fail-fast).  Concretely: with source `A`
absent and source `B` synchronising successfully the merge returns `True`;
with both present and `A`'s synchronization failing the merge returns
`False` yet still runs rsync for `B`. -/
theorem C5_merge_best_effort :
    (∀ (dry_run rsync_available : Bool) (fs : FS) (sources : List FPath)
        (target : FPath),
      (ReclassParser.merge_inventories dry_run rsync_available fs sources target).1 =
        sources.all (ReclassParser.source_ok dry_run rsync_available fs target)) ∧
    (∀ (dry_run rsync_available : Bool) (fs : FS) (sources : List FPath)
        (target : FPath),
      (ReclassParser.merge_inventories dry_run rsync_available fs sources target).2 =
        [FSOp.mkdirP target, FSOp.mkdirP (pjoin target "nodes"),
          FSOp.mkdirP (pjoin target "classes")] ++
            sources.flatMap (ReclassParser.source_effects dry_run rsync_available fs target)) ∧
    ((ReclassParser.merge_inventories false true bothOkFS [["A"], ["B"]] ["T"]).1 = true ∧
      bothOkFS.pathExists ["A"] = false) ∧
    ((ReclassParser.merge_inventories false true firstFailFS [["A"], ["B"]] ["T"]).1 = false ∧
      FSOp.runRsync ["rsync", "-a", "-m", "--exclude=.keep", "B/nodes/", "T/nodes"] ∈
        (ReclassParser.merge_inventories false true firstFailFS [["A"], ["B"]] ["T"]).2) := by
  refine ⟨?_, ?_, ⟨by decide, by decide⟩, ⟨by decide, by decide⟩⟩
  · intro dry_run rsync_available fs sources target
    unfold ReclassParser.merge_inventories
    rw [ReclassParser.merge_foldl]
    simp
  · intro dry_run rsync_available fs sources target
    unfold ReclassParser.merge_inventories
    rw [ReclassParser.merge_foldl]

/-! ## Claim C7 -/

/-- Modelled from the claim: the strict node-name grammar on a string —
only letters, digits, dot, hyphen, underscore; non-empty; at most 100
characters. -/
def nodeNameGrammarOK (s : String) : Bool :=
  s ≠ "" && s.toList.all isNodeNameChar && decide (s.length ≤ 100)

/-- Validation failure of a node name, characterised: `sanitize_node_name`
raises exactly when the whitespace-stripped input fails the grammar. -/
theorem sanitize_none_of_grammar_fails {name : String}
    (h : nodeNameGrammarOK (pyStrip name) = false) :
    InputValidator.sanitize_node_name name = none := by
  unfold InputValidator.sanitize_node_name
  by_cases h0 : name = ""
  · rw [if_pos h0]
  · rw [if_neg h0]
    unfold nodeNameGrammarOK at h
    rcases Bool.and_eq_false_iff.mp h with hcond | hlen
    · have hc : ¬ ((pyStrip name ≠ "" &&
          (pyStrip name).toList.all isNodeNameChar) = true) := by
        rw [hcond]
        exact Bool.false_ne_true
      rw [if_neg hc]
    · have hgt : (pyStrip name).length > 100 := by
        have := of_decide_eq_false hlen
        omega
      by_cases hcond : (pyStrip name ≠ "" &&
          (pyStrip name).toList.all isNodeNameChar) = true
      · rw [if_pos hcond, if_pos hgt]
      · rw [if_neg hcond]

/-- `get_node_data` on a name whose validation fails: absent result, no
subprocess invocation, whatever the manager state. -/
theorem ReclassManager.get_node_data_invalid_name {m : ReclassManager}
    {name : String} (h : InputValidator.sanitize_node_name name = none) :
    ReclassManager.get_node_data m name = (none, []) := by
  unfold ReclassManager.get_node_data
  cases hrp : m.reclass_path <;> simp [hrp, h]

/-- C7 (counterexample): the claim quantifies over every input string that
fails the grammar.  The input `" web "` fails it (it contains spaces), yet
`get_node_data` strips the name before validating, so with `reclass`
available in real mode the subprocess *is* invoked (with the stripped name):
the executed-command list is non-empty. -/
theorem C7_counterexample_strip_before_validation :
    nodeNameGrammarOK " web " = false ∧
    (ReclassManager.get_node_data unsortedManager " web ").2 =
      [["reclass", "-b", "inv", "-n", "web", "--output", "json"]] :=
  ⟨by decide, by decide⟩

/-- C7 (amended): for every input string whose whitespace-stripped form
fails the strict node-name grammar, `get_node_data` returns an absent result
without ever invoking the external classifier process (the executed-command
list is empty), for every manager state. -/
theorem C7_invalid_name_never_reaches_subprocess :
    ∀ (m : ReclassManager) (name : String),
      nodeNameGrammarOK (pyStrip name) = false →
      ReclassManager.get_node_data m name = (none, []) := by
  intro m name h
  exact ReclassManager.get_node_data_invalid_name (sanitize_none_of_grammar_fails h)

/-- C7 witness: a stripped-form grammar failure on a concrete manager. -/
theorem C7_invalid_name_never_reaches_subprocess_witness :
    nodeNameGrammarOK (pyStrip " we b ") = false ∧
    ReclassManager.get_node_data unsortedManager " we b " = (none, []) :=
  ⟨by decide,
    C7_invalid_name_never_reaches_subprocess unsortedManager " we b " (by decide)⟩

/-! ## Claim C8 -/

/-- An environment without the classifier: two node files found by the scan,
`prod/web.yml` and `db.yml`. -/
def exampleParserEnv : ReclassParser.Env :=
  { inventory_dir := "inv", dry_run := false, reclass_path := none,
    invOutput := none, nodeOutput := fun _ => none,
    nodes_dir_exists := true, yml_files := [["prod", "web.yml"], ["db.yml"]] }

/-- C8: when the external classifier is unavailable, `list_nodes` falls back
to the filesystem scan of the `nodes` subtree; the scan derives each node
name from the file's relative path (extension stripped, path separators
replaced by dots) and returns the sorted list of those names.  Concretely,
files `prod/web.yml` and `db.yml` yield `["db", "prod.web"]`. -/
theorem C8_filesystem_scan_fallback :
    (∀ p : ReclassParser.Env, p.reclass_path = none →
      ReclassParser.list_nodes p = ReclassParser._scan_nodes_from_filesystem p) ∧
    (∀ p : ReclassParser.Env,
      List.Sorted strLe (ReclassParser._scan_nodes_from_filesystem p)) ∧
    (∀ p : ReclassParser.Env, p.nodes_dir_exists = true →
      ReclassParser._scan_nodes_from_filesystem p =
        pySorted (p.yml_files.map ReclassParser.node_name_of_rel_path)) ∧
    (ReclassParser.node_name_of_rel_path ["prod", "web.yml"] = "prod.web" ∧
      ReclassParser.list_nodes exampleParserEnv = ["db", "prod.web"]) := by
  refine ⟨?_, ?_, ?_, by decide, by decide⟩
  · intro p h
    unfold ReclassParser.list_nodes
    rw [h]
  · intro p
    unfold ReclassParser._scan_nodes_from_filesystem
    split
    · exact List.sorted_nil
    · exact pySorted_sorted _
  · intro p h
    unfold ReclassParser._scan_nodes_from_filesystem
    rw [if_neg (by simp [h])]

/-- C8 witness: the fallback equation applied to the concrete environment. -/
theorem C8_filesystem_scan_fallback_witness :
    exampleParserEnv.reclass_path = none ∧
    ReclassParser.list_nodes exampleParserEnv =
      ReclassParser._scan_nodes_from_filesystem exampleParserEnv :=
  ⟨rfl, C8_filesystem_scan_fallback.1 exampleParserEnv rfl⟩

/-! ## Claim C10 -/

theorem ReclassManager.get_node_parameters_failure_cases
    (m : ReclassManager) (name : String) :
    (m.reclass_path = none → get_node_parameters m name = []) ∧
    (InputValidator.sanitize_node_name name = none →
      get_node_parameters m name = []) ∧
    (∀ nm, InputValidator.sanitize_node_name name = some nm → m.dry_run = false →
      m.nodeOutput nm = none → get_node_parameters m name = []) ∧
    (∀ nm d, InputValidator.sanitize_node_name name = some nm → m.dry_run = false →
      m.nodeOutput nm = some d → d.parameters = none →
      get_node_parameters m name = []) := by
  refine ⟨?_, ?_, ?_, ?_⟩
  · intro h
    unfold get_node_parameters get_node_data
    rw [h]
  · intro h
    unfold get_node_parameters get_node_data
    cases hrp : m.reclass_path <;> simp [h]
  · intro nm hs hd hq
    unfold get_node_parameters get_node_data
    cases hrp : m.reclass_path <;> simp [hs, hd, hq]
  · intro nm d hs hd hq hp
    unfold get_node_parameters get_node_data
    cases hrp : m.reclass_path <;> simp [hs, hd, hq, hp]

theorem ReclassManager.get_node_classes_failure_cases
    (m : ReclassManager) (name : String) :
    (m.reclass_path = none → get_node_classes m name = []) ∧
    (InputValidator.sanitize_node_name name = none →
      get_node_classes m name = []) ∧
    (∀ nm, InputValidator.sanitize_node_name name = some nm → m.dry_run = false →
      m.nodeOutput nm = none → get_node_classes m name = []) ∧
    (∀ nm d, InputValidator.sanitize_node_name name = some nm → m.dry_run = false →
      m.nodeOutput nm = some d → d.classes = none →
      get_node_classes m name = []) := by
  refine ⟨?_, ?_, ?_, ?_⟩
  · intro h
    unfold get_node_classes get_node_data
    rw [h]
  · intro h
    unfold get_node_classes get_node_data
    cases hrp : m.reclass_path <;> simp [h]
  · intro nm hs hd hq
    unfold get_node_classes get_node_data
    cases hrp : m.reclass_path <;> simp [hs, hd, hq]
  · intro nm d hs hd hq hp
    unfold get_node_classes get_node_data
    cases hrp : m.reclass_path <;> simp [hs, hd, hq, hp]

theorem ReclassParser.parser_node_parameters_failure_cases
    (p : ReclassParser.Env) (name : String) :
    (p.reclass_path = none → ReclassParser.get_node_parameters p name = []) ∧
    (InputValidator.sanitize_node_name name = none →
      ReclassParser.get_node_parameters p name = []) ∧
    (∀ nm, InputValidator.sanitize_node_name name = some nm → p.dry_run = false →
      p.nodeOutput nm = none → ReclassParser.get_node_parameters p name = []) ∧
    (∀ nm d, InputValidator.sanitize_node_name name = some nm → p.dry_run = false →
      p.nodeOutput nm = some d → d.parameters = none →
      ReclassParser.get_node_parameters p name = []) := by
  refine ⟨?_, ?_, ?_, ?_⟩
  · intro h
    unfold ReclassParser.get_node_parameters ReclassParser.get_node_data
    rw [h]
  · intro h
    unfold ReclassParser.get_node_parameters ReclassParser.get_node_data
    cases hrp : p.reclass_path <;> simp [h]
  · intro nm hs hd hq
    unfold ReclassParser.get_node_parameters ReclassParser.get_node_data
    cases hrp : p.reclass_path <;> simp [hs, hd, hq]
  · intro nm d hs hd hq hp
    unfold ReclassParser.get_node_parameters ReclassParser.get_node_data
    cases hrp : p.reclass_path <;> simp [hs, hd, hq, hp]

theorem ReclassParser.parser_node_classes_failure_cases
    (p : ReclassParser.Env) (name : String) :
    (p.reclass_path = none → ReclassParser.get_node_classes p name = []) ∧
    (InputValidator.sanitize_node_name name = none →
      ReclassParser.get_node_classes p name = []) ∧
    (∀ nm, InputValidator.sanitize_node_name name = some nm → p.dry_run = false →
      p.nodeOutput nm = none → ReclassParser.get_node_classes p name = []) ∧
    (∀ nm d, InputValidator.sanitize_node_name name = some nm → p.dry_run = false →
      p.nodeOutput nm = some d → d.classes = none →
      ReclassParser.get_node_classes p name = []) := by
  refine ⟨?_, ?_, ?_, ?_⟩
  · intro h
    unfold ReclassParser.get_node_classes ReclassParser.get_node_data
    rw [h]
  · intro h
    unfold ReclassParser.get_node_classes ReclassParser.get_node_data
    cases hrp : p.reclass_path <;> simp [h]
  · intro nm hs hd hq
    unfold ReclassParser.get_node_classes ReclassParser.get_node_data
    cases hrp : p.reclass_path <;> simp [hs, hd, hq]
  · intro nm d hs hd hq hp
    unfold ReclassParser.get_node_classes ReclassParser.get_node_data
    cases hrp : p.reclass_path <;> simp [hs, hd, hq, hp]

/-- C10: the per-node accessors of both `ReclassManager` and `ReclassParser`
are total functions returning a mapping and a list, and in every enumerated
failure mode — classifier unavailable, invalid name, failed or unparseable
single-node query, or a well-parsed document missing the `parameters`
(resp. `classes`) key — they return the empty mapping and the empty list. -/
theorem C10_node_accessors_default_to_empty :
    (∀ (m : ReclassManager) (name : String),
      (m.reclass_path = none →
        ReclassManager.get_node_parameters m name = [] ∧
        ReclassManager.get_node_classes m name = []) ∧
      (InputValidator.sanitize_node_name name = none →
        ReclassManager.get_node_parameters m name = [] ∧
        ReclassManager.get_node_classes m name = []) ∧
      (∀ nm, InputValidator.sanitize_node_name name = some nm → m.dry_run = false →
        m.nodeOutput nm = none →
        ReclassManager.get_node_parameters m name = [] ∧
        ReclassManager.get_node_classes m name = []) ∧
      (∀ nm d, InputValidator.sanitize_node_name name = some nm → m.dry_run = false →
        m.nodeOutput nm = some d →
        (d.parameters = none → ReclassManager.get_node_parameters m name = []) ∧
        (d.classes = none → ReclassManager.get_node_classes m name = []))) ∧
    (∀ (p : ReclassParser.Env) (name : String),
      (p.reclass_path = none →
        ReclassParser.get_node_parameters p name = [] ∧
        ReclassParser.get_node_classes p name = []) ∧
      (InputValidator.sanitize_node_name name = none →
        ReclassParser.get_node_parameters p name = [] ∧
        ReclassParser.get_node_classes p name = []) ∧
      (∀ nm, InputValidator.sanitize_node_name name = some nm → p.dry_run = false →
        p.nodeOutput nm = none →
        ReclassParser.get_node_parameters p name = [] ∧
        ReclassParser.get_node_classes p name = []) ∧
      (∀ nm d, InputValidator.sanitize_node_name name = some nm → p.dry_run = false →
        p.nodeOutput nm = some d →
        (d.parameters = none → ReclassParser.get_node_parameters p name = []) ∧
        (d.classes = none → ReclassParser.get_node_classes p name = []))) := by
  constructor
  · intro m name
    have hp := ReclassManager.get_node_parameters_failure_cases m name
    have hc := ReclassManager.get_node_classes_failure_cases m name
    exact ⟨fun h => ⟨hp.1 h, hc.1 h⟩,
      fun h => ⟨hp.2.1 h, hc.2.1 h⟩,
      fun nm hs hd hq => ⟨hp.2.2.1 nm hs hd hq, hc.2.2.1 nm hs hd hq⟩,
      fun nm d hs hd hq =>
        ⟨fun hx => hp.2.2.2 nm d hs hd hq hx,
          fun hx => hc.2.2.2 nm d hs hd hq hx⟩⟩
  · intro p name
    have hp := ReclassParser.parser_node_parameters_failure_cases p name
    have hc := ReclassParser.parser_node_classes_failure_cases p name
    exact ⟨fun h => ⟨hp.1 h, hc.1 h⟩,
      fun h => ⟨hp.2.1 h, hc.2.1 h⟩,
      fun nm hs hd hq => ⟨hp.2.2.1 nm hs hd hq, hc.2.2.1 nm hs hd hq⟩,
      fun nm d hs hd hq =>
        ⟨fun hx => hp.2.2.2 nm d hs hd hq hx,
          fun hx => hc.2.2.2 nm d hs hd hq hx⟩⟩

/-- C10 witness: the invalid-name case on a concrete manager. -/
theorem C10_node_accessors_default_to_empty_witness :
    InputValidator.sanitize_node_name "b@d" = none ∧
    (ReclassManager.get_node_parameters unsortedManager "b@d" = [] ∧
      ReclassManager.get_node_classes unsortedManager "b@d" = []) :=
  ⟨by decide,
    (C10_node_accessors_default_to_empty.1 unsortedManager "b@d").2.1 (by decide)⟩
